import Mathlib

/-!
Shallow embedding of the GraphQL schema-to-model parser
(`src/datamodel_code_generator/parser/graphql.py`) and proofs of the
specification claims about it.

The embedding follows the source file closely: each Lean definition is named
after the Python function or class attribute it translates, and the doc
comment of each definition points to the source lines it embeds.  Code of the
repository that is not shipped under `src/` (the `model_resolver` helpers of
`reference.py`, the `escape_characters` table of `parser/base.py`, the
`DataTypeManager`) is modelled from the specification text; those definitions
say so explicitly in their doc comments.
-/

namespace GraphQL

/-- The kind of a named GraphQL type, mirroring
`graphql.type.introspection.TypeKind` restricted to the six named-type kinds
that can occur in a schema's `type_map` (wrapper kinds LIST / NON_NULL never
appear as named types). -/
inductive TypeKind : Type where
  | SCALAR
  | ENUM
  | INTERFACE
  | OBJECT
  | INPUT_OBJECT
  | UNION
deriving DecidableEq, Repr

/-- A GraphQL type expression as seen by `parse_field`: a named type possibly
surrounded by list and non-null wrapper types (`graphql-core` wrapper chain). -/
inductive GQLType : Type where
  | named (name : String)
  | list (ofType : GQLType)
  | nonNull (ofType : GQLType)
deriving DecidableEq, Repr

/-- A GraphQL constant value, used for default values of input fields and
directive arguments and for the Python-level default stored on a field
record.  `vstr` also represents plain Python strings such as the quoted
literal defaults produced by `parse_enum`. -/
inductive GQLValue : Type where
  | vnull
  | vbool (b : Bool)
  | vint (n : Int)
  | vstr (s : String)
  | venum (name : String)
deriving DecidableEq, Repr

/-- The intermediate type descriptor `DataType`
(`datamodel_code_generator.types.DataType`) restricted to the attributes the
GraphQL parser reads or writes: `is_optional`, `is_list`, the nested
`data_types` list, the resolved `reference` (modelled by the referenced
type's name), the raw `type` string for unresolved names, and `literals`.
A recursive structure, hence an inductive with accessor functions. -/
inductive DataType : Type where
  | mk (is_optional : Bool) (is_list : Bool) (data_types : List DataType)
      (reference : Option String) (type : Option String) (literals : List String)

def DataType.is_optional : DataType → Bool
  | .mk o _ _ _ _ _ => o

def DataType.is_list : DataType → Bool
  | .mk _ l _ _ _ _ => l

def DataType.data_types : DataType → List DataType
  | .mk _ _ ds _ _ _ => ds

def DataType.reference : DataType → Option String
  | .mk _ _ _ r _ _ => r

def DataType.type : DataType → Option String
  | .mk _ _ _ _ t _ => t

def DataType.literals : DataType → List String
  | .mk _ _ _ _ _ ls => ls

/-- `DataType(is_optional=True, ...)` — the fresh descriptor allocated at
graphql.py:449-453 and 461-465. -/
def freshDataType : DataType := .mk true false [] none none []

/-- `DataType()` with constructor defaults (used by `_typename_field` and
`parse_union`); the constructor's default for `is_optional` is `False`
(`datamodel_code_generator.types`, not under `src/`). -/
def defaultDataType : DataType := .mk false false [] none none []

/-- A GraphQL field, input field or directive argument as consumed by
`parse_field`.  `is_input_or_arg` models
`isinstance(field, (graphql.GraphQLInputField, graphql.GraphQLArgument))`.
`default_value` models the graphql-core attribute: `none` is
`graphql.pyutils.Undefined` (no declared default), `some none` is an explicit
`null` default (Python `None`), `some (some v)` is the value `v`. -/
structure GQLField : Type where
  -- the Python attribute is `type`; `type` is a Lean keyword in field position
  type_ : GQLType
  is_input_or_arg : Bool := false
  default_value : Option (Option GQLValue) := none
  description : Option String := none

/-- The field record produced by the parser: the keyword arguments passed to
`self.data_model_field_type(...)` that the claims observe. -/
structure FieldRecord : Type where
  name : String
  data_type : DataType
  default : Option GQLValue := none
  required : Bool := false
  -- the Python keyword argument is `alias`; `alias` is a Lean keyword
  alias_ : Option String := none
  original_name : Option String := none
  has_default : Bool := false
  nullable : Option Bool := none
  use_one_literal_as_default : Bool := false

/-- The parser configuration: the constructor attributes of `GraphQLParser`
that the embedded functions consult.  `sanitize` models the identifier
sanitization performed inside `model_resolver.get_valid_field_name`
(`reference.py`, not under `src/`); modelled from the spec: fields whose names
collide with the target language's reserved identifiers are renamed, the
rename being flavor specific.  `data_model_directive_type` is `some ()` when a
directive model type was injected at construction and `none` otherwise
(graphql.py:253 — no fallback). -/
structure ParserConfig : Type where
  force_optional_for_required_fields : Bool := false
  sanitize : String → String := id
  -- Modelled from the spec: `model_resolver.get_class_name` (`reference.py`,
  -- not under `src/`) derives the directive's class name from its schema name.
  get_class_name : String → String := id
  data_model_directive_type : Option Unit := none

/-- The wrapper-unwinding loop of `parse_field` (graphql.py:457-486),
written as structural recursion on the wrapper chain.  The Python loop
mutates the current descriptor node: a list wrapper sets `is_list` and
descends into a freshly allocated nested descriptor, a non-null wrapper
clears `is_optional` on the current node; at the innermost named type the
node receives a `reference` when the name is registered (the dedicated enum
branch at graphql.py:475-477 assigns the same reference, since every enum
type is registered by `_resolve_types` before any field is parsed) and the
raw `type` string otherwise. -/
def buildDataType (references : List String) : GQLType → DataType → DataType
  | .list t, .mk o _ _ r ty ls =>
      .mk o true [buildDataType references t freshDataType] r ty ls
  | .nonNull t, .mk _ l ds r ty ls =>
      buildDataType references t (.mk false l ds r ty ls)
  | .named n, .mk o l ds r ty ls =>
      if n ∈ references then .mk o l ds (some n) ty ls
      else .mk o l ds r (some n) ls

/-- graphql.py:489-492: a field has a declared default iff it is an input
field or directive argument and its `default_value` is not `Undefined`. -/
def has_default_value (f : GQLField) : Bool :=
  f.is_input_or_arg && f.default_value.isSome

/-- `GraphQLParser._get_default` (graphql.py:354-387).  For input fields and
directive arguments it returns the declared default (`None` when the default
is `Undefined`); the enum detection walk inside the branch does not change
the returned value, and every other path returns `None`. -/
def get_default (f : GQLField) (final_data_type : DataType) (required : Bool) :
    Option GQLValue :=
  if f.is_input_or_arg then
    match f.default_value with
    | none => none
    | some pv => pv
  else if required = false && final_data_type.is_list then none
  else none

/-- `GraphQLParser.parse_field` (graphql.py:436-528). -/
def parse_field (cfg : ParserConfig) (references : List String)
    (field_name : String) (aliasArg : Option String) (f : GQLField) : FieldRecord :=
  let final_data_type := buildDataType references f.type_ freshDataType
  let hdv := has_default_value f
  let required :=
    !cfg.force_optional_for_required_fields && !final_data_type.is_optional && !hdv
  let default := get_default f final_data_type required
  let nullable : Option Bool :=
    if hdv && !final_data_type.is_optional then some false else none
  { name := field_name
    data_type := final_data_type
    default := default
    required := required
    alias_ := aliasArg
    original_name := some field_name
    has_default := default.isSome
    nullable := nullable }

/-- The outermost wrapper of a type expression is a non-null wrapper. -/
def isOuterNonNull : GQLType → Bool
  | .nonNull _ => true
  | _ => false

/-- Unwinding a type expression leaves `is_optional` of the node being
filled untouched unless the outermost wrapper is non-null, in which case the
resulting node is non-optional. -/
theorem buildDataType_is_optional (references : List String) (t : GQLType)
    (d : DataType) :
    (buildDataType references t d).is_optional =
      if isOuterNonNull t then false else d.is_optional := by
  induction t generalizing d with
  | named n =>
      cases d with
      | mk o l ds r ty ls =>
          simp only [buildDataType, isOuterNonNull]
          split <;> simp [DataType.is_optional]
  | list t ih =>
      cases d with
      | mk o l ds r ty ls =>
          simp [buildDataType, isOuterNonNull, DataType.is_optional]
  | nonNull t ih =>
      cases d with
      | mk o l ds r ty ls =>
          simp only [buildDataType, isOuterNonNull]
          rw [ih]
          cases t <;> simp [isOuterNonNull, DataType.is_optional]

/-- Claim C1: with `force_optional_for_required_fields` at its default
`False`, the field record produced by `parse_field` has `required = True`
iff the field's outermost type is non-null (equivalently, the final
descriptor's `is_optional` is `False` after unwinding the wrappers) and the
field carries no explicit default value. -/
theorem C1_required_iff_nonnull_and_no_default
    (cfg : ParserConfig) (references : List String) (field_name : String)
    (aliasArg : Option String) (f : GQLField)
    (hforce : cfg.force_optional_for_required_fields = false) :
    ((parse_field cfg references field_name aliasArg f).data_type.is_optional = false
        ↔ isOuterNonNull f.type_ = true) ∧
    ((parse_field cfg references field_name aliasArg f).required = true
        ↔ ((parse_field cfg references field_name aliasArg f).data_type.is_optional = false
            ∧ has_default_value f = false)) := by
  have hopt : (buildDataType references f.type_ freshDataType).is_optional
      = if isOuterNonNull f.type_ then false else true :=
    buildDataType_is_optional references f.type_ freshDataType
  cases hout : isOuterNonNull f.type_ <;> cases hdv : has_default_value f <;>
    rw [hout] at hopt <;> simp [parse_field, hopt, hforce, hdv]

/-- Witness for C1 at a concrete non-null field with no default
(`name: String!`): the hypothesis holds for the default configuration and
the conclusion evaluates as claimed. -/
theorem C1_witness :
    ({} : ParserConfig).force_optional_for_required_fields = false ∧
    (((parse_field {} ["String"] "name" none
          { type_ := .nonNull (.named "String") }).data_type.is_optional = false
        ↔ isOuterNonNull (GQLType.nonNull (.named "String")) = true) ∧
      ((parse_field {} ["String"] "name" none
          { type_ := .nonNull (.named "String") }).required = true
        ↔ ((parse_field {} ["String"] "name" none
              { type_ := .nonNull (.named "String") }).data_type.is_optional = false
            ∧ has_default_value { type_ := .nonNull (.named "String") } = false))) :=
  ⟨rfl, C1_required_iff_nonnull_and_no_default {} ["String"] "name" none
    { type_ := .nonNull (.named "String") } rfl⟩

/-- Claim C2: an input field or directive argument with a non-null declared
type and an explicit default value is parsed into a field record with
`nullable = False` even though `required = False`. -/
theorem C2_nonnull_with_default_pins_nullable
    (cfg : ParserConfig) (references : List String) (field_name : String)
    (aliasArg : Option String) (f : GQLField)
    (hin : f.is_input_or_arg = true)
    (hdef : f.default_value.isSome = true)
    (hnn : isOuterNonNull f.type_ = true) :
    (parse_field cfg references field_name aliasArg f).nullable = some false
      ∧ (parse_field cfg references field_name aliasArg f).required = false := by
  have hopt : (buildDataType references f.type_ freshDataType).is_optional
      = if isOuterNonNull f.type_ then false else true :=
    buildDataType_is_optional references f.type_ freshDataType
  rw [hnn] at hopt
  simp [parse_field, hopt, has_default_value, hin, hdef]

/-- Witness for C2 at the concrete directive argument `enabled: Boolean! =
true`: the hypotheses hold and the field record has `nullable = some false`
and `required = false`. -/
theorem C2_witness :
    let f : GQLField :=
      { type_ := .nonNull (.named "Boolean"), is_input_or_arg := true,
        default_value := some (some (.vbool true)) }
    f.is_input_or_arg = true ∧ f.default_value.isSome = true ∧
      isOuterNonNull f.type_ = true ∧
      ((parse_field {} ["Boolean"] "enabled" none f).nullable = some false
        ∧ (parse_field {} ["Boolean"] "enabled" none f).required = false) :=
  ⟨rfl, rfl, rfl,
    C2_nonnull_with_default_pins_nullable {} ["Boolean"] "enabled" none
      { type_ := .nonNull (.named "Boolean"), is_input_or_arg := true,
        default_value := some (some (.vbool true)) } rfl rfl rfl⟩

/-- Claim C3: `parse_field` translates `[String!]!` into a descriptor whose
outermost node is non-optional and list-shaped, with a single nested element
descriptor that is non-optional and not itself a list; a plain nullable
`String` translates to an optional descriptor with no list nesting. -/
theorem C3_nullability_round_trip :
    ((parse_field {} ["String"] "tags" none
        { type_ := .nonNull (.list (.nonNull (.named "String"))) }).data_type.is_optional
        = false) ∧
    ((parse_field {} ["String"] "tags" none
        { type_ := .nonNull (.list (.nonNull (.named "String"))) }).data_type.is_list
        = true) ∧
    ((parse_field {} ["String"] "tags" none
        { type_ := .nonNull (.list (.nonNull (.named "String"))) }).data_type.data_types.map
          DataType.is_optional = [false]) ∧
    ((parse_field {} ["String"] "tags" none
        { type_ := .nonNull (.list (.nonNull (.named "String"))) }).data_type.data_types.map
          DataType.is_list = [false]) ∧
    ((parse_field {} ["String"] "email" none
        { type_ := .named "String" }).data_type.is_optional = true) ∧
    ((parse_field {} ["String"] "email" none
        { type_ := .named "String" }).data_type.is_list = false) ∧
    ((parse_field {} ["String"] "email" none
        { type_ := .named "String" }).data_type.data_types = []) := by
  refine ⟨rfl, rfl, rfl, rfl, rfl, rfl, rfl⟩

/-- Modelled from the spec: the collision-resolution step inside
`model_resolver.get_valid_field_name` (`reference.py`, which is not under
`src/`): a duplicate derived identifier is "resolved by an exclusion-set
threaded through the whole object/enum being built, forcing the colliding
name to receive a disambiguating suffix — never silently dropped, never a
fatal error".  While the candidate is in the exclusion set it receives a
suffix and is retried; the recursion removes the clashing entry from the
set, which is sound because later candidates are strictly longer. -/
def uniquifyAux : Nat → List String → String → String
  | 0, _, name => name
  | fuel + 1, excludes, name =>
      if name ∈ excludes then uniquifyAux fuel (excludes.erase name) (name ++ "_")
      else name

/-- Modelled from the spec: the collision-resolution step inside
`model_resolver.get_valid_field_name` (`reference.py`, which is not under
`src/`): a duplicate derived identifier is "resolved by an exclusion-set
threaded through the whole object/enum being built, forcing the colliding
name to receive a disambiguating suffix — never silently dropped, never a
fatal error".  While the candidate is in the exclusion set it receives a
suffix and is retried; the retry loop is bounded by a fuel that is always
sufficient, because each round removes the clashing entry from the set
(later candidates are strictly longer, so the removal never hides a
collision). -/
def uniquify (excludes : List String) (name : String) : String :=
  uniquifyAux (excludes.length + 1) excludes name

/-- Each disambiguation round only lengthens the candidate name. -/
theorem uniquifyAux_length (fuel : Nat) :
    ∀ (excludes : List String) (name : String),
      name.length ≤ (uniquifyAux fuel excludes name).length := by
  induction fuel with
  | zero => intro excludes name; simp [uniquifyAux]
  | succ fuel ih =>
      intro excludes name
      rw [uniquifyAux]
      split
      · have h1 := ih (excludes.erase name) (name ++ "_")
        have h2 : (name ++ "_").length = name.length + 1 := by
          rw [String.length_append]
          rfl
        omega
      · exact Nat.le_refl _

/-- With enough fuel, the disambiguated name is never a member of the
exclusion set. -/
theorem uniquifyAux_not_mem (fuel : Nat) :
    ∀ (excludes : List String) (name : String), excludes.length < fuel →
      uniquifyAux fuel excludes name ∉ excludes := by
  induction fuel with
  | zero => intro excludes name hlt; omega
  | succ fuel ih =>
      intro excludes name hlt
      rw [uniquifyAux]
      split
      · next hmem =>
          intro hr
          have herase := List.length_erase_of_mem hmem
          have hpos : 0 < excludes.length :=
            List.length_pos.mpr (List.ne_nil_of_mem hmem)
          have hIH := ih (excludes.erase name) (name ++ "_") (by omega)
          have hlen := uniquifyAux_length fuel (excludes.erase name) (name ++ "_")
          have hne : uniquifyAux fuel (excludes.erase name) (name ++ "_") ≠ name := by
            intro he
            rw [he, String.length_append] at hlen
            have h1 : ("_" : String).length = 1 := rfl
            omega
          exact hIH ((List.mem_erase_of_ne hne).mpr hr)
      · next hmem => exact hmem

/-- The disambiguated name is never a member of the exclusion set. -/
theorem uniquify_not_mem (excludes : List String) (name : String) :
    uniquify excludes name ∉ excludes :=
  uniquifyAux_not_mem (excludes.length + 1) excludes name (Nat.lt_succ_self _)

/-- A name that does not collide is returned unchanged. -/
theorem uniquify_eq_of_not_mem (excludes : List String) (name : String)
    (h : name ∉ excludes) : uniquify excludes name = name := by
  rw [uniquify, uniquifyAux, if_neg h]

/-- Modelled from the spec: `model_resolver.get_valid_field_name`
(`reference.py`, not under `src/`): derive a valid target-language
identifier for a schema name — flavor-specific sanitization followed by
collision resolution against the exclusion set. -/
def get_valid_field_name (cfg : ParserConfig) (excludes : List String)
    (name : String) : String :=
  uniquify excludes (cfg.sanitize name)

/-- Modelled from the spec: `model_resolver.get_valid_field_name_and_alias`
(`reference.py`, not under `src/`): the valid identifier together with the
schema-original name recorded as the alias when renaming was required. -/
def get_valid_field_name_and_alias (cfg : ParserConfig)
    (excludes : List String) (name : String) : String × Option String :=
  let valid := get_valid_field_name cfg excludes name
  (valid, if valid = name then none else some name)

/-- The single-quote character, written via its code point so that the
quoted-literal strings below stay plain. -/
def squote : String := String.singleton (Char.ofNat 39)

/-- The backslash character. -/
def backslash : String := String.singleton (Char.ofNat 92)

/-- Modelled from the spec: the `escape_characters` translation applied by
`value_name.translate(escape_characters)` (`parser/base.py`, not under
`src/`): escapes the characters that cannot stand raw inside a
single-quoted literal (the quote and the backslash).  On GraphQL enum value
names, which match `[_A-Za-z][_0-9A-Za-z]*`, it is the identity. -/
def translate_escape (s : String) : String :=
  String.join (s.toList.map fun c =>
    if c = Char.ofNat 39 then backslash ++ squote
    else if c = Char.ofNat 92 then backslash ++ backslash
    else String.singleton c)

/-- Modelled from the spec: the target string type descriptor returned by
`self.data_type_manager.get_data_type(Types.string)` (the `DataTypeManager`
is not under `src/`). -/
def string_data_type : DataType := .mk false false [] none (some "str") []

/-- The kind of intermediate model, recording which model class the parser
instantiated (`data_model_scalar_type`, `data_model_enum_type`,
`data_model_type` for interfaces and objects, `data_model_input_type`,
`data_model_union_type`, `data_model_directive_type`). -/
inductive ModelKind : Type where
  | scalar
  | enum
  | interface
  | object
  | input_object
  | union
  | directive
deriving DecidableEq, Repr

/-- An intermediate model record: the constructor arguments of the model
classes that the claims observe. -/
structure Model : Type where
  kind : ModelKind
  name : String
  fields : List FieldRecord := []
  base_classes : List String := []
  locations : List String := []

/-- The field record built for one enumerated value in the `parse_enum`
loop (graphql.py:404-425): default is the single-quoted escaped literal of
the value's original schema name, `required` is `True`, and `original_name`
is passed as `None`. -/
def enum_value_field (field_name value_name : String) : FieldRecord :=
  { name := field_name
    data_type := string_data_type
    default := some (.vstr (squote ++ translate_escape value_name ++ squote))
    required := true
    has_default := true
    original_name := none }

/-- The `for value_name, value in enum_object.values.items()` loop of
`parse_enum` (graphql.py:404-425), threading the exclusion set. -/
def parse_enum_fields (cfg : ParserConfig) (excludes : List String) :
    List String → List FieldRecord
  | [] => []
  | value_name :: rest =>
      let field_name := get_valid_field_name cfg excludes value_name
      enum_value_field field_name value_name ::
        parse_enum_fields cfg (field_name :: excludes) rest

/-- `GraphQLParser.parse_enum` (graphql.py:400-434); the enum's values are
given as the list of value names in the order of `enum_object.values`. -/
def parse_enum (cfg : ParserConfig) (enum_name : String)
    (values : List String) : Model :=
  { kind := .enum, name := enum_name
    fields := parse_enum_fields cfg [] values }

/-- `GraphQLParser._typename_field` (graphql.py:337-352). -/
def typename_field (name : String) : FieldRecord :=
  { name := "typename__"
    data_type := .mk false false [] none none [name]
    default := some (.vstr name)
    required := false
    alias_ := some "__typename"
    use_one_literal_as_default := true
    has_default := true }

/-- An object-like GraphQL type declaration: an object, interface or input
object with its ordered field list and (for objects) declared interfaces. -/
structure GQLObject : Type where
  name : String
  fields : List (String × GQLField) := []
  interfaces : List String := []

/-- The field loop of `parse_object_like` (graphql.py:534-544), threading
the exclusion set through `get_valid_field_name_and_alias`. -/
def parse_object_fields (cfg : ParserConfig) (references : List String)
    (excludes : List String) : List (String × GQLField) → List FieldRecord
  | [] => []
  | (field_name, f) :: rest =>
      let p := get_valid_field_name_and_alias cfg excludes field_name
      parse_field cfg references p.1 p.2 f ::
        parse_object_fields cfg references (p.1 :: excludes) rest

/-- `GraphQLParser.parse_object_like` (graphql.py:530-565).  The model kind
records which parse method dispatched here; the synthetic typename field is
appended after all declared fields (graphql.py:546-547). -/
def parse_object_like (cfg : ParserConfig) (references : List String)
    (kind : ModelKind) (obj : GQLObject) : Model :=
  { kind := kind, name := obj.name
    fields := parse_object_fields cfg references [] obj.fields
      ++ [typename_field obj.name]
    base_classes := obj.interfaces }

/-- `GraphQLParser.parse_interface` (graphql.py:567-568). -/
def parse_interface (cfg : ParserConfig) (references : List String)
    (obj : GQLObject) : Model :=
  parse_object_like cfg references .interface obj

/-- `GraphQLParser.parse_object` (graphql.py:570-571). -/
def parse_object (cfg : ParserConfig) (references : List String)
    (obj : GQLObject) : Model :=
  parse_object_like cfg references .object obj

/-- The field loop of `parse_input_object` (graphql.py:585-597): the valid
name is computed with `get_valid_field_name` and the alias is the original
schema name when the two differ. -/
def parse_input_fields (cfg : ParserConfig) (references : List String)
    (excludes : List String) : List (String × GQLField) → List FieldRecord
  | [] => []
  | (field_name, f) :: rest =>
      let alias_name := get_valid_field_name cfg excludes field_name
      let a : Option String :=
        if alias_name ≠ field_name then some field_name else none
      parse_field cfg references alias_name a f ::
        parse_input_fields cfg references (alias_name :: excludes) rest

/-- `GraphQLParser.parse_input_object` (graphql.py:573-613); the synthetic
typename field is appended after all declared fields (graphql.py:599-600). -/
def parse_input_object (cfg : ParserConfig) (references : List String)
    (obj : GQLObject) : Model :=
  { kind := .input_object, name := obj.name
    fields := parse_input_fields cfg references [] obj.fields
      ++ [typename_field obj.name] }

/-- The names emitted by the `parse_enum` loop are pairwise distinct and
avoid the initial exclusion set: each round's name is produced by
disambiguation against the threaded set and then added to it. -/
theorem parse_enum_fields_names (cfg : ParserConfig) (vs : List String) :
    ∀ excludes : List String,
      ((parse_enum_fields cfg excludes vs).map FieldRecord.name).Nodup ∧
      ∀ n ∈ (parse_enum_fields cfg excludes vs).map FieldRecord.name,
        n ∉ excludes := by
  induction vs with
  | nil => intro excludes; simp [parse_enum_fields]
  | cons v rest ih =>
      intro excludes
      obtain ⟨ihN, ihM⟩ := ih (get_valid_field_name cfg excludes v :: excludes)
      have hfree : get_valid_field_name cfg excludes v ∉ excludes :=
        uniquify_not_mem excludes (cfg.sanitize v)
      constructor
      · rw [parse_enum_fields]
        simp only [List.map_cons, List.nodup_cons]
        refine ⟨fun hmem => ?_, ihN⟩
        exact ihM _ hmem (List.mem_cons_self _ _)
      · rw [parse_enum_fields]
        simp only [List.map_cons, List.mem_cons]
        rintro n (rfl | hn)
        · exact hfree
        · intro hex
          exact ihM n hn (List.mem_cons_of_mem _ hex)

/-- Every field built by the `parse_enum` loop records as default the
single-quoted escaped literal of its value's original schema name and is
required. -/
theorem parse_enum_fields_map (cfg : ParserConfig) (vs : List String) :
    ∀ excludes : List String,
      (parse_enum_fields cfg excludes vs).map
          (fun fr => (fr.default, fr.required)) =
        vs.map (fun v =>
          (some (GQLValue.vstr (squote ++ translate_escape v ++ squote)),
            true)) := by
  induction vs with
  | nil => intro excludes; simp [parse_enum_fields]
  | cons v rest ih =>
      intro excludes
      rw [parse_enum_fields]
      simp only [List.map_cons, ih, enum_value_field]

/-- Every field built by the `parse_enum` loop records as default the
single-quoted escaped literal of its value's original schema name. -/
theorem parse_enum_fields_map_default (cfg : ParserConfig) (vs : List String) :
    ∀ excludes : List String,
      (parse_enum_fields cfg excludes vs).map FieldRecord.default =
        vs.map (fun v =>
          some (GQLValue.vstr (squote ++ translate_escape v ++ squote))) := by
  induction vs with
  | nil => intro excludes; simp [parse_enum_fields]
  | cons v rest ih =>
      intro excludes
      rw [parse_enum_fields]
      simp only [List.map_cons, ih, enum_value_field]

/-- Every field built by the `parse_enum` loop is passed
`original_name=None` (graphql.py:423). -/
theorem parse_enum_fields_map_original (cfg : ParserConfig) (vs : List String) :
    ∀ excludes : List String,
      (parse_enum_fields cfg excludes vs).map FieldRecord.original_name =
        vs.map (fun _ => (none : Option String)) := by
  induction vs with
  | nil => intro excludes; simp [parse_enum_fields]
  | cons v rest ih =>
      intro excludes
      rw [parse_enum_fields]
      simp only [List.map_cons, ih, enum_value_field]

/-- Claim C7 as stated is false on the code: for an enum whose two value
names sanitize to the same identifier, the two field identifiers are indeed
distinct, but the fields' original schema names are not recoverable from
stored original-name metadata — `parse_enum` passes `original_name=None`
for every enum field (graphql.py:423). -/
theorem C7_counterexample :
    ((parse_enum { sanitize := fun _ => "value" } "Direction"
        ["ASC", "DESC"]).fields.map FieldRecord.name = ["value", "value_"]) ∧
    ((parse_enum { sanitize := fun _ => "value" } "Direction"
        ["ASC", "DESC"]).fields.map FieldRecord.original_name
      = [none, none]) :=
  ⟨rfl, rfl⟩

/-- The names emitted by the object field loop are pairwise distinct and
avoid the initial exclusion set, for arbitrary declared names — including
names that sanitize to the same identifier: each round disambiguates
against the threaded exclusion set and then adds its result to it
(graphql.py:534-544). -/
theorem parse_object_fields_names_nodup (cfg : ParserConfig)
    (references : List String) (fs : List (String × GQLField)) :
    ∀ excludes : List String,
      ((parse_object_fields cfg references excludes fs).map
          FieldRecord.name).Nodup ∧
      ∀ n ∈ (parse_object_fields cfg references excludes fs).map
          FieldRecord.name, n ∉ excludes := by
  induction fs with
  | nil => intro excludes; simp [parse_object_fields]
  | cons p rest ih =>
      intro excludes
      obtain ⟨ihN, ihM⟩ :=
        ih ((get_valid_field_name_and_alias cfg excludes p.1).1 :: excludes)
      have hfree : (get_valid_field_name_and_alias cfg excludes p.1).1
          ∉ excludes := by
        simpa [get_valid_field_name_and_alias, get_valid_field_name] using
          uniquify_not_mem excludes (cfg.sanitize p.1)
      have hpfname : (parse_field cfg references
          (get_valid_field_name_and_alias cfg excludes p.1).1
          (get_valid_field_name_and_alias cfg excludes p.1).2 p.2).name
            = (get_valid_field_name_and_alias cfg excludes p.1).1 := rfl
      constructor
      · rw [parse_object_fields]
        simp only [List.map_cons, List.nodup_cons, hpfname]
        refine ⟨fun hmem => ?_, ihN⟩
        exact ihM _ hmem (List.mem_cons_self _ _)
      · rw [parse_object_fields]
        simp only [List.map_cons, List.mem_cons, hpfname]
        rintro n (rfl | hn)
        · exact hfree
        · intro hex
          exact ihM n hn (List.mem_cons_of_mem _ hex)

/-- Same as `parse_object_fields_names_nodup` for the input-object (and
directive-argument) field loop (graphql.py:585-597, 692-704). -/
theorem parse_input_fields_names_nodup (cfg : ParserConfig)
    (references : List String) (fs : List (String × GQLField)) :
    ∀ excludes : List String,
      ((parse_input_fields cfg references excludes fs).map
          FieldRecord.name).Nodup ∧
      ∀ n ∈ (parse_input_fields cfg references excludes fs).map
          FieldRecord.name, n ∉ excludes := by
  induction fs with
  | nil => intro excludes; simp [parse_input_fields]
  | cons p rest ih =>
      intro excludes
      obtain ⟨ihN, ihM⟩ :=
        ih (get_valid_field_name cfg excludes p.1 :: excludes)
      have hfree : get_valid_field_name cfg excludes p.1 ∉ excludes := by
        simpa [get_valid_field_name] using
          uniquify_not_mem excludes (cfg.sanitize p.1)
      have hpfname : (parse_field cfg references
          (get_valid_field_name cfg excludes p.1)
          (if get_valid_field_name cfg excludes p.1 ≠ p.1 then some p.1
            else none) p.2).name
            = get_valid_field_name cfg excludes p.1 := rfl
      constructor
      · rw [parse_input_fields]
        simp only [List.map_cons, List.nodup_cons, hpfname]
        refine ⟨fun hmem => ?_, ihN⟩
        exact ihM _ hmem (List.mem_cons_self _ _)
      · rw [parse_input_fields]
        simp only [List.map_cons, List.mem_cons, hpfname]
        rintro n (rfl | hn)
        · exact hfree
        · intro hex
          exact ihM n hn (List.mem_cons_of_mem _ hex)

/-- Each record of the object field loop stores the original schema field
name as its alias exactly when the derived identifier differs from it
(graphql.py:538-543 with `get_valid_field_name_and_alias`). -/
theorem parse_object_fields_alias (cfg : ParserConfig)
    (references : List String) (fs : List (String × GQLField)) :
    ∀ excludes : List String,
      List.Forall₂
        (fun fr p => fr.alias_ = if fr.name = p.1 then none else some p.1)
        (parse_object_fields cfg references excludes fs) fs := by
  induction fs with
  | nil => intro excludes; exact List.Forall₂.nil
  | cons p rest ih =>
      intro excludes
      rw [parse_object_fields]
      refine List.Forall₂.cons ?_ (ih _)
      simp [parse_field, get_valid_field_name_and_alias]

/-- Each record of the input-object field loop stores the original schema
field name as its alias exactly when the derived identifier differs from
it (graphql.py:585-597). -/
theorem parse_input_fields_alias (cfg : ParserConfig)
    (references : List String) (fs : List (String × GQLField)) :
    ∀ excludes : List String,
      List.Forall₂
        (fun fr p => fr.alias_ = if fr.name = p.1 then none else some p.1)
        (parse_input_fields cfg references excludes fs) fs := by
  induction fs with
  | nil => intro excludes; exact List.Forall₂.nil
  | cons p rest ih =>
      intro excludes
      rw [parse_input_fields]
      refine List.Forall₂.cons ?_ (ih _)
      by_cases h : get_valid_field_name cfg excludes p.1 = p.1 <;>
        simp [parse_field, h]

/-- Claim C7 (amended): given an enum with value names that sanitize to the
same target identifier — and likewise an object, interface or input
object with such field names — the builder yields pairwise-distinct field
identifiers: the collision is resolved via the exclusion set threaded
through the whole enum/object, never dropped and never fatal.  Each enum
field's original schema name is recoverable from the field's default
literal (the quoted original name), not from the stored original-name
metadata, which is `None` for every enum field; each object/input field
records the original schema name as its alias exactly when the derived
identifier differs from it.  (The declared fields of an object-like model
are its fields up to `dropLast`, the last field being the synthetic
typename field.) -/
theorem C7_collision_resolution_amended (cfg : ParserConfig)
    (enum_name : String) (values : List String)
    (references : List String) (obj : GQLObject) :
    ((parse_enum cfg enum_name values).fields.map FieldRecord.name).Nodup ∧
    ((parse_enum cfg enum_name values).fields.map FieldRecord.default =
      values.map (fun v =>
        some (GQLValue.vstr (squote ++ translate_escape v ++ squote)))) ∧
    ((parse_enum cfg enum_name values).fields.map FieldRecord.original_name =
      values.map (fun _ => (none : Option String))) ∧
    (((parse_object cfg references obj).fields.dropLast.map
        FieldRecord.name).Nodup) ∧
    (((parse_interface cfg references obj).fields.dropLast.map
        FieldRecord.name).Nodup) ∧
    (((parse_input_object cfg references obj).fields.dropLast.map
        FieldRecord.name).Nodup) ∧
    (List.Forall₂
      (fun fr p => fr.alias_ = if fr.name = p.1 then none else some p.1)
      (parse_object cfg references obj).fields.dropLast obj.fields) ∧
    (List.Forall₂
      (fun fr p => fr.alias_ = if fr.name = p.1 then none else some p.1)
      (parse_input_object cfg references obj).fields.dropLast obj.fields) := by
  refine ⟨(parse_enum_fields_names cfg values []).1,
    parse_enum_fields_map_default cfg values [],
    parse_enum_fields_map_original cfg values [], ?_, ?_, ?_, ?_, ?_⟩ <;>
    simp only [parse_object, parse_interface, parse_input_object,
      parse_object_like, List.dropLast_concat]
  · exact (parse_object_fields_names_nodup cfg references obj.fields []).1
  · exact (parse_object_fields_names_nodup cfg references obj.fields []).1
  · exact (parse_input_fields_names_nodup cfg references obj.fields []).1
  · exact parse_object_fields_alias cfg references obj.fields []
  · exact parse_input_fields_alias cfg references obj.fields []

/-- Claim C8: `parse_enum` builds one enum model containing one field per
enumerated value, each field's default being the single-quoted escaped
literal of the value's original schema name and each field being required;
in particular `enum Direction { ASC DESC }` yields one enum model with the
two such fields. -/
theorem C8_enum_value_fields (cfg : ParserConfig) (enum_name : String)
    (values : List String) :
    ((parse_enum cfg enum_name values).fields.length = values.length) ∧
    ((parse_enum cfg enum_name values).fields.map
        (fun fr => (fr.default, fr.required)) =
      values.map (fun v =>
        (some (GQLValue.vstr (squote ++ translate_escape v ++ squote)),
          true))) ∧
    ((parse_enum cfg enum_name values).kind = .enum) ∧
    ((parse_enum { } "Direction" ["ASC", "DESC"]).fields.map
        (fun fr => (fr.name, fr.default, fr.required)) =
      [("ASC", some (.vstr (squote ++ "ASC" ++ squote)), true),
        ("DESC", some (.vstr (squote ++ "DESC" ++ squote)), true)]) := by
  refine ⟨?_, parse_enum_fields_map cfg values [], rfl, rfl⟩
  have h := congrArg List.length (parse_enum_fields_map cfg values [])
  simpa [parse_enum] using h

/-- Fields produced by `parse_field` always carry original-name metadata
(graphql.py:525), so no declared field of an object-like model can be
mistaken for the synthetic typename field, whose `original_name` is absent. -/
theorem parse_object_fields_original_isSome (cfg : ParserConfig)
    (references : List String) (fs : List (String × GQLField)) :
    ∀ excludes : List String,
      ∀ fr ∈ parse_object_fields cfg references excludes fs,
        fr.original_name.isSome = true := by
  induction fs with
  | nil => intro excludes fr hfr; simp [parse_object_fields] at hfr
  | cons p rest ih =>
      intro excludes fr hfr
      rw [parse_object_fields] at hfr
      rcases List.mem_cons.mp hfr with hfr2 | hfr2
      · subst hfr2; rfl
      · exact ih _ fr hfr2

/-- Same for the input-object field loop (graphql.py:585-597). -/
theorem parse_input_fields_original_isSome (cfg : ParserConfig)
    (references : List String) (fs : List (String × GQLField)) :
    ∀ excludes : List String,
      ∀ fr ∈ parse_input_fields cfg references excludes fs,
        fr.original_name.isSome = true := by
  induction fs with
  | nil => intro excludes fr hfr; simp [parse_input_fields] at hfr
  | cons p rest ih =>
      intro excludes fr hfr
      rw [parse_input_fields] at hfr
      rcases List.mem_cons.mp hfr with hfr2 | hfr2
      · subst hfr2; rfl
      · exact ih _ fr hfr2

/-- The two field loops emit one record per declared field. -/
theorem parse_object_fields_length (cfg : ParserConfig)
    (references : List String) (fs : List (String × GQLField)) :
    ∀ excludes : List String,
      (parse_object_fields cfg references excludes fs).length = fs.length := by
  induction fs with
  | nil => intro excludes; rfl
  | cons p rest ih =>
      intro excludes
      rw [parse_object_fields]
      simp [ih]

/-- The input-object field loop emits one record per declared field. -/
theorem parse_input_fields_length (cfg : ParserConfig)
    (references : List String) (fs : List (String × GQLField)) :
    ∀ excludes : List String,
      (parse_input_fields cfg references excludes fs).length = fs.length := by
  induction fs with
  | nil => intro excludes; rfl
  | cons p rest ih =>
      intro excludes
      rw [parse_input_fields]
      simp [ih]

/-- Claim C9: every object, interface and input-object model built by the
parser has as its last field the synthetic typename field — default equal
to the type's own name, `required = False`, alias `"__typename"` — and this
field is appended exactly once, after all declared fields (it is the only
field without original-name metadata). -/
theorem C9_typename_field_appended (cfg : ParserConfig)
    (references : List String) (obj : GQLObject) :
    ((parse_object cfg references obj).fields.getLast?
        = some (typename_field obj.name)) ∧
    ((parse_object cfg references obj).fields.length
        = obj.fields.length + 1) ∧
    (((parse_object cfg references obj).fields.filter
        (fun fr => fr.original_name.isNone)).length = 1) ∧
    ((parse_interface cfg references obj).fields
        = (parse_object cfg references obj).fields) ∧
    ((parse_input_object cfg references obj).fields.getLast?
        = some (typename_field obj.name)) ∧
    ((parse_input_object cfg references obj).fields.length
        = obj.fields.length + 1) ∧
    (((parse_input_object cfg references obj).fields.filter
        (fun fr => fr.original_name.isNone)).length = 1) ∧
    ((typename_field obj.name).default = some (.vstr obj.name)) ∧
    ((typename_field obj.name).required = false) ∧
    ((typename_field obj.name).alias_ = some "__typename") := by
  have hobjnil : (parse_object_fields cfg references [] obj.fields).filter
      (fun fr => fr.original_name.isNone) = [] := by
    rw [List.filter_eq_nil_iff]
    intro fr hfr
    have h := parse_object_fields_original_isSome cfg references obj.fields [] fr hfr
    simp [Option.isNone, Option.isSome] at h ⊢
    cases hofr : fr.original_name with
    | none => rw [hofr] at h; simp at h
    | some v => simp
  have hinnil : (parse_input_fields cfg references [] obj.fields).filter
      (fun fr => fr.original_name.isNone) = [] := by
    rw [List.filter_eq_nil_iff]
    intro fr hfr
    have h := parse_input_fields_original_isSome cfg references obj.fields [] fr hfr
    cases hofr : fr.original_name with
    | none => rw [hofr] at h; simp at h
    | some v => simp
  refine ⟨?_, ?_, ?_, rfl, ?_, ?_, ?_, rfl, rfl, rfl⟩
  · simp [parse_object, parse_object_like]
  · simp [parse_object, parse_object_like, parse_object_fields_length]
  · simp [parse_object, parse_object_like, List.filter_append, hobjnil,
      typename_field]
  · simp [parse_input_object]
  · simp [parse_input_object, parse_input_fields_length]
  · simp [parse_input_object, List.filter_append, hinnil, typename_field]

/-- A named type declaration as it appears in the schema's `type_map`:
objects and interfaces with their ordered field lists, input objects, enums
with their ordered value names, unions with their member type names, and
scalars. -/
inductive NamedTypeDecl : Type where
  | scalarDecl (name : String)
  | enumDecl (name : String) (values : List String)
  | interfaceDecl (name : String) (fields : List (String × GQLField))
  | objectDecl (name : String) (fields : List (String × GQLField))
      (interfaces : List String)
  | inputDecl (name : String) (fields : List (String × GQLField))
  | unionDecl (name : String) (members : List String)

def NamedTypeDecl.name : NamedTypeDecl → String
  | .scalarDecl n => n
  | .enumDecl n _ => n
  | .interfaceDecl n _ => n
  | .objectDecl n _ _ => n
  | .inputDecl n _ => n
  | .unionDecl n _ => n

/-- `graphql_resolver.kind(type_, None)` (graphql.py:46, 300) restricted to
named types: the kind of a named type declaration. -/
def NamedTypeDecl.kind : NamedTypeDecl → TypeKind
  | .scalarDecl _ => .SCALAR
  | .enumDecl _ _ => .ENUM
  | .interfaceDecl _ _ => .INTERFACE
  | .objectDecl _ _ _ => .OBJECT
  | .inputDecl _ _ => .INPUT_OBJECT
  | .unionDecl _ _ => .UNION

/-- Models Python's `str.startswith` (`type_name.startswith("__")`,
graphql.py:294), via character-list prefix testing so that it evaluates on
concrete inputs. -/
def startswith (s pre : String) : Bool := pre.toList.isPrefixOf s.toList

/-- The five built-in GraphQL scalar type names (graphql.py:291). -/
def builtin_scalars : List String := ["String", "Int", "Float", "Boolean", "ID"]

/-- The bucket keys of `support_graphql_types` (graphql.py:633-640). -/
def supported_kinds : List TypeKind :=
  [.SCALAR, .ENUM, .UNION, .INTERFACE, .OBJECT, .INPUT_OBJECT]

/-- The classifier state built by `_resolve_types`: the Reference Table
(modelled by the list of registered names, in registration order — the
`Reference` record itself carries only the name, original name and a path
derived from it) and the kind buckets (modelled by the registered
(kind, declaration) pairs, preserving per-kind append order). -/
structure ResolveState : Type where
  references : List String := []
  support : List (TypeKind × NamedTypeDecl) := []

/-- One iteration of the `for type_name, type_ in schema.type_map.items()`
loop of `_resolve_types` (graphql.py:293-328): skip introspection names,
skip the root operation type names, register built-in scalars (when their
resolved kind is scalar), skip every other scalar, and register every
remaining supported kind. -/
def resolve_types_step (st : ResolveState) (decl : NamedTypeDecl) :
    ResolveState :=
  if startswith decl.name "__" then st
  else if decl.name = "Query" ∨ decl.name = "Mutation" then st
  else if decl.name ∈ builtin_scalars then
    if decl.kind = .SCALAR then
      { references := st.references ++ [decl.name]
        support := st.support ++ [(.SCALAR, decl)] }
    else st
  else if decl.kind = .SCALAR then st
  else if decl.kind ∈ supported_kinds then
    { references := st.references ++ [decl.name]
      support := st.support ++ [(decl.kind, decl)] }
  else st

/-- `GraphQLParser._resolve_types` (graphql.py:282-328). -/
def resolve_types (type_map : List NamedTypeDecl) : ResolveState :=
  type_map.foldl resolve_types_step {}

/-- A directive declaration from `schema.directives`: name, ordered
argument list and allowed locations. -/
structure GQLDirective : Type where
  name : String
  args : List (String × GQLField) := []
  locations : List String := []

/-- The four built-in directive names filtered by `_parse_directives`
(graphql.py:681). -/
def builtin_directives : List String :=
  ["skip", "include", "deprecated", "specifiedBy"]

/-- The model built for one user-defined directive (graphql.py:688-737):
its arguments are parsed exactly like input fields (the argument loop at
graphql.py:692-704 is the same loop as graphql.py:585-597), its locations
are kept in order, and its class name is derived from the directive name. -/
def directive_model (cfg : ParserConfig) (references : List String)
    (d : GQLDirective) : Model :=
  { kind := .directive
    name := cfg.get_class_name d.name
    fields := parse_input_fields cfg references [] d.args
    locations := d.locations }

/-- `GraphQLParser._parse_directives` (graphql.py:667-737): built-in
directives are skipped; every remaining directive appends one model to the
results, in declaration order. -/
def parse_directives (cfg : ParserConfig) (references : List String) :
    List GQLDirective → List Model
  | [] => []
  | d :: rest =>
      if d.name ∈ builtin_directives then parse_directives cfg references rest
      else directive_model cfg references d ::
        parse_directives cfg references rest

/-- A GraphQL schema as produced by `graphql.build_schema`: the named types
of the `type_map` and the schema's directives (which include the built-in
directives). -/
structure GQLSchema : Type where
  type_map : List NamedTypeDecl := []
  directives : List GQLDirective := []

/-- Code-point-wise lexicographic comparison of character lists, modelling
the string comparison used by Python's `sorted`. -/
def cmpChars : List Char → List Char → Bool
  | [], _ => true
  | _ :: _, [] => false
  | c :: cs, d :: ds =>
      if c.toNat < d.toNat then true
      else if d.toNat < c.toNat then false
      else cmpChars cs ds

/-- Lexicographic less-or-equal on strings, modelling the comparison used
by Python's `sorted` for schema names. -/
def str_le (a b : String) : Bool := cmpChars a.toList b.toList

/-- `cmpChars` is total. -/
theorem cmpChars_total : ∀ as bs : List Char,
    cmpChars as bs = true ∨ cmpChars bs as = true := by
  intro as
  induction as with
  | nil => intro bs; left; rfl
  | cons c cs ih =>
      intro bs
      cases bs with
      | nil => right; rfl
      | cons d ds =>
          rcases Nat.lt_trichotomy c.toNat d.toNat with h | h | h
          · left; simp [cmpChars, h]
          · rcases ih ds with hl | hr
            · left; simp [cmpChars, h, hl]
            · right; simp [cmpChars, h.symm, hr]
          · right; simp [cmpChars, h]

/-- `cmpChars` is transitive. -/
theorem cmpChars_trans : ∀ as bs cs : List Char,
    cmpChars as bs = true → cmpChars bs cs = true → cmpChars as cs = true := by
  intro as
  induction as with
  | nil => intro bs cs _ _; rfl
  | cons a as1 ih =>
      intro bs cs h1 h2
      cases bs with
      | nil => simp [cmpChars] at h1
      | cons b bs1 =>
          cases cs with
          | nil => simp [cmpChars] at h2
          | cons c cs1 =>
              rw [cmpChars] at h1 h2 ⊢
              split at h1
              · next hab =>
                  split at h2
                  · next hbc => simp [Nat.lt_trans hab hbc]
                  · split at h2
                    · next => exact absurd h2 (by simp)
                    · next hcb hbc =>
                        have hbc2 : b.toNat = c.toNat := by omega
                        simp [hbc2 ▸ hab]
              · split at h1
                · next => exact absurd h1 (by simp)
                · next hba hab =>
                    have hab2 : a.toNat = b.toNat := by omega
                    split at h2
                    · next hbc => simp [hab2 ▸ hbc]
                    · split at h2
                      · next => exact absurd h2 (by simp)
                      · next hcb hbc =>
                          have hbc2 : b.toNat = c.toNat := by omega
                          have hac : ¬ a.toNat < c.toNat := by omega
                          have hca : ¬ c.toNat < a.toNat := by omega
                          simp [hac, hca]
                          exact ih bs1 cs1 h1 h2

/-- `str_le` is total. -/
theorem str_le_total (a b : String) :
    str_le a b = true ∨ str_le b a = true :=
  cmpChars_total a.toList b.toList

/-- `str_le` is transitive. -/
theorem str_le_trans (a b c : String)
    (h1 : str_le a b = true) (h2 : str_le b c = true) : str_le a c = true :=
  cmpChars_trans a.toList b.toList c.toList h1 h2

/-- Sort a list by a string key, modelling Python's stable `sorted`. -/
def sort_by_name {α : Type} (key : α → String) (l : List α) : List α :=
  List.insertionSort (fun a b => str_le (key a) (key b) = true) l

/-- The per-declaration part of `graphql.lexicographic_sort_schema`: fields,
enum values and union member types are re-emitted sorted by name. -/
def sort_decl : NamedTypeDecl → NamedTypeDecl
  | .scalarDecl n => .scalarDecl n
  | .enumDecl n vs => .enumDecl n (sort_by_name id vs)
  | .interfaceDecl n fs => .interfaceDecl n (sort_by_name Prod.fst fs)
  | .objectDecl n fs is => .objectDecl n (sort_by_name Prod.fst fs) is
  | .inputDecl n fs => .inputDecl n (sort_by_name Prod.fst fs)
  | .unionDecl n ms => .unionDecl n (sort_by_name id ms)

/-- `build_graphql_schema` (graphql.py:49-52): parse the schema text and
apply `graphql.lexicographic_sort_schema`.  The sorting utility belongs to
the external `graphql-core` library; modelled from its documented behavior:
it returns a copy of the schema with the types of the `type_map`, the
directives, and — inside each type — the fields, input fields, arguments,
and enum values sorted lexicographically by name. -/
def build_graphql_schema (schema : GQLSchema) : GQLSchema :=
  { type_map := sort_by_name NamedTypeDecl.name (schema.type_map.map sort_decl)
    directives := sort_by_name GQLDirective.name
      (schema.directives.map fun d =>
        { d with args := sort_by_name Prod.fst d.args }) }

/-- `GraphQLParser.parse_scalar` (graphql.py:389-398): a fieldless scalar
model. -/
def parse_scalar (decl_name : String) : Model :=
  { kind := .scalar, name := decl_name, fields := [] }

/-- `GraphQLParser.parse_union` (graphql.py:615-627): one field per union
member naming the member type, with a default-constructed descriptor. -/
def parse_union (union_name : String) (members : List String) : Model :=
  { kind := .union, name := union_name
    fields := members.map fun m =>
      { name := m, data_type := defaultDataType } }

/-- The kind-to-parse-method dispatch
(`mapper_from_graphql_type_to_parser_method`, graphql.py:643-650), applied
to one registered declaration. -/
def parse_named_type (cfg : ParserConfig) (references : List String) :
    NamedTypeDecl → Model
  | .scalarDecl n => parse_scalar n
  | .enumDecl n vs => parse_enum cfg n vs
  | .interfaceDecl n fs => parse_interface cfg references ⟨n, fs, []⟩
  | .objectDecl n fs is => parse_object cfg references ⟨n, fs, is⟩
  | .inputDecl n fs => parse_input_object cfg references ⟨n, fs, []⟩
  | .unionDecl n ms => parse_union n ms

/-- The render order of the kind buckets (`parse_order`, graphql.py:72-79). -/
def parse_order : List TypeKind :=
  [.SCALAR, .ENUM, .INTERFACE, .OBJECT, .INPUT_OBJECT, .UNION]

/-- The declarations registered in the bucket of one kind, in registration
order (the per-kind lists of `support_graphql_types`). -/
def bucket (st : ResolveState) (k : TypeKind) : List NamedTypeDecl :=
  (st.support.filter fun p => p.1 = k).map Prod.snd

/-- `GraphQLParser.parse_raw` (graphql.py:629-665) for one schema source:
build and sort the schema, classify its types, parse each bucket in
`parse_order`, and finally — only when a directive model type was injected —
extract the directives. -/
def parse_raw (cfg : ParserConfig) (schema : GQLSchema) : List Model :=
  let sorted := build_graphql_schema schema
  let st := resolve_types sorted.type_map
  let models := parse_order.flatMap fun k =>
    (bucket st k).map (parse_named_type cfg st.references)
  models ++
    (if cfg.data_model_directive_type.isSome then
      parse_directives cfg st.references sorted.directives
    else [])

/-- Claim C5: during classification, a type named after one of the five
built-in scalars (its resolved kind being scalar) is registered in the
Reference Table and the scalar bucket; a type named `Query` or `Mutation`
is excluded entirely; a type whose name begins with the introspection
prefix `__` is excluded; and every other scalar-kind type is skipped — no
reference, no bucket entry, hence no model. -/
theorem C5_resolve_types_classification (st : ResolveState)
    (decl : NamedTypeDecl) :
    (decl.name ∈ builtin_scalars → decl.kind = .SCALAR →
      resolve_types_step st decl =
        { references := st.references ++ [decl.name]
          support := st.support ++ [(.SCALAR, decl)] }) ∧
    ((decl.name = "Query" ∨ decl.name = "Mutation") →
      resolve_types_step st decl = st) ∧
    (startswith decl.name "__" = true → resolve_types_step st decl = st) ∧
    (decl.name ∉ builtin_scalars →
      ¬(decl.name = "Query" ∨ decl.name = "Mutation") →
      startswith decl.name "__" = false → decl.kind = .SCALAR →
      resolve_types_step st decl = st) := by
  refine ⟨?_, ?_, ?_, ?_⟩
  · intro hb hk
    have hnames : decl.name = "String" ∨ decl.name = "Int" ∨
        decl.name = "Float" ∨ decl.name = "Boolean" ∨ decl.name = "ID" := by
      simpa [builtin_scalars] using hb
    have h1 : startswith decl.name "__" = false := by
      rcases hnames with h | h | h | h | h <;> rw [h] <;> decide
    have h2 : ¬(decl.name = "Query" ∨ decl.name = "Mutation") := by
      rcases hnames with h | h | h | h | h <;> rw [h] <;> decide
    simp [resolve_types_step, h1, h2, hb, hk]
  · intro h
    have h1 : startswith decl.name "__" = false := by
      rcases h with h | h <;> rw [h] <;> decide
    simp [resolve_types_step, h1, h]
  · intro h1
    simp [resolve_types_step, h1]
  · intro hb hqm h1 hk
    simp [resolve_types_step, h1, hqm, hb, hk]

/-- Witness for C5: the built-in scalar `String` is registered; an object
named `Query` is excluded; the introspection type `__Schema` is excluded;
the custom scalar `DateTime` is skipped. -/
theorem C5_witness :
    (resolve_types_step {} (.scalarDecl "String") =
      { references := [] ++ ["String"]
        support := [] ++ [(.SCALAR, .scalarDecl "String")] }) ∧
    (resolve_types_step {} (.objectDecl "Query" [] []) = {}) ∧
    (resolve_types_step {} (.objectDecl "__Schema" [] []) = {}) ∧
    (resolve_types_step {} (.scalarDecl "DateTime") = {}) :=
  ⟨(C5_resolve_types_classification {} (.scalarDecl "String")).1 (by decide) rfl,
    (C5_resolve_types_classification {} (.objectDecl "Query" [] [])).2.1
      (Or.inl rfl),
    (C5_resolve_types_classification {} (.objectDecl "__Schema" [] [])).2.2.1
      (by decide),
    (C5_resolve_types_classification {} (.scalarDecl "DateTime")).2.2.2
      (by decide) (by decide) (by decide) rfl⟩

/-- Claim C6: a schema whose directives all bear one of the four built-in
directive names contributes zero directive models. -/
theorem C6_builtin_directives_yield_no_models (cfg : ParserConfig)
    (references : List String) (ds : List GQLDirective)
    (h : ∀ d ∈ ds, d.name ∈ builtin_directives) :
    parse_directives cfg references ds = [] := by
  induction ds with
  | nil => rfl
  | cons d rest ih =>
      rw [parse_directives, if_pos (h d (List.mem_cons_self d rest))]
      exact ih fun x hx => h x (List.mem_cons_of_mem d hx)

/-- Witness for C6 at the concrete list of the four built-in directives. -/
theorem C6_witness :
    (∀ d ∈ ([⟨"skip", [], []⟩, ⟨"include", [], []⟩, ⟨"deprecated", [], []⟩,
        ⟨"specifiedBy", [], []⟩] : List GQLDirective),
      d.name ∈ builtin_directives) ∧
    parse_directives {} [] [⟨"skip", [], []⟩, ⟨"include", [], []⟩,
      ⟨"deprecated", [], []⟩, ⟨"specifiedBy", [], []⟩] = [] :=
  ⟨by decide,
    C6_builtin_directives_yield_no_models {} [] _ (by decide)⟩

/-- No parse method of the named-type dispatch ever produces a
directive-kind model. -/
theorem parse_named_type_kind_ne_directive (cfg : ParserConfig)
    (references : List String) (decl : NamedTypeDecl) :
    (parse_named_type cfg references decl).kind ≠ .directive := by
  cases decl <;>
    simp [parse_named_type, parse_scalar, parse_enum, parse_interface,
      parse_object, parse_object_like, parse_input_object, parse_union]

/-- Claim C10: when no directive model type is injected at construction
(`data_model_directive_type` defaults to `None`, with no fallback), the
results of `parse_raw` contain zero directive models, for every input
schema — including schemas that declare user-defined directives. -/
theorem C10_no_directive_models_without_injection (cfg : ParserConfig)
    (schema : GQLSchema) (h : cfg.data_model_directive_type = none) :
    (parse_raw cfg schema).filter
      (fun m => m.kind == ModelKind.directive) = [] := by
  rw [parse_raw]
  simp only [h, Option.isSome_none, Bool.false_eq_true, if_false,
    List.append_nil]
  rw [List.filter_eq_nil_iff]
  intro m hm
  simp only [List.mem_flatMap, List.mem_map] at hm
  obtain ⟨k, _, decl, _, rfl⟩ := hm
  simpa using parse_named_type_kind_ne_directive cfg _ decl

/-- Witness for C10: the default configuration injects no directive model
type, and parsing a schema that declares the user-defined directive `auth`
yields no directive model. -/
theorem C10_witness :
    ({} : ParserConfig).data_model_directive_type = none ∧
    (parse_raw {}
        { type_map := [.objectDecl "User"
            [("id", { type_ := .nonNull (.named "ID") })] []]
          directives := [{ name := "auth" }] }).filter
      (fun m => m.kind == ModelKind.directive) = [] :=
  ⟨rfl,
    C10_no_directive_models_without_injection {}
      { type_map := [.objectDecl "User"
          [("id", { type_ := .nonNull (.named "ID") })] []]
        directives := [{ name := "auth" }] } rfl⟩

/-- Claim C4 fails as stated: `build_graphql_schema` applies
`graphql.lexicographic_sort_schema` before any parsing, so for an object
whose fields are declared in the order `b`, `a` the model's declared field
records come out in the order `a`, `b` — the sorted order, not the schema
declaration order. -/
theorem C4_counterexample :
    ((parse_raw {}
        { type_map := [.objectDecl "T"
            [("b", { type_ := .named "String" }),
              ("a", { type_ := .named "String" })] []] }).map
        (fun m => m.fields.dropLast.map FieldRecord.name)
      = [["a", "b"]]) ∧
    [["a", "b"]] ≠ [["b", "a"]] :=
  ⟨rfl, by decide⟩

/-- The names of the records emitted by the object field loop are exactly
the declared field names, whenever sanitization leaves those names
unchanged, they are pairwise distinct, and none of them is already in the
exclusion set. -/
theorem parse_object_fields_names_untouched (cfg : ParserConfig)
    (references : List String) (fs : List (String × GQLField)) :
    ∀ excludes : List String,
      (∀ x ∈ fs.map Prod.fst, cfg.sanitize x = x) →
      (fs.map Prod.fst).Nodup →
      (∀ x ∈ fs.map Prod.fst, x ∉ excludes) →
      (parse_object_fields cfg references excludes fs).map FieldRecord.name
        = fs.map Prod.fst := by
  induction fs with
  | nil => intro excludes _ _ _; rfl
  | cons p rest ih =>
      intro excludes hsan hnd hdisj
      have hhead : p.1 ∈ (p :: rest).map Prod.fst := by simp
      have hname : (get_valid_field_name_and_alias cfg excludes p.1).1 = p.1 := by
        simp only [get_valid_field_name_and_alias, get_valid_field_name,
          hsan p.1 hhead]
        exact uniquify_eq_of_not_mem excludes p.1 (hdisj p.1 hhead)
      rw [parse_object_fields]
      simp only [List.map_cons, hname]
      have hrest : (parse_object_fields cfg references
          (p.1 :: excludes) rest).map FieldRecord.name
            = rest.map Prod.fst := by
        refine ih (p.1 :: excludes) (fun x hx => hsan x (by simp [hx]))
          ((List.nodup_cons.mp hnd).2 : (rest.map Prod.fst).Nodup)
          (fun x hx => ?_)
        have hxne : x ≠ p.1 := fun he =>
          (List.nodup_cons.mp hnd).1 (he ▸ hx)
        have hxex : x ∉ excludes := hdisj x (by simp [hx])
        simp [List.mem_cons, hxne, hxex]
      rw [hrest]
      simp [parse_field]

/-- Same as `parse_object_fields_names_untouched` for the input-object
field loop. -/
theorem parse_input_fields_names_untouched (cfg : ParserConfig)
    (references : List String) (fs : List (String × GQLField)) :
    ∀ excludes : List String,
      (∀ x ∈ fs.map Prod.fst, cfg.sanitize x = x) →
      (fs.map Prod.fst).Nodup →
      (∀ x ∈ fs.map Prod.fst, x ∉ excludes) →
      (parse_input_fields cfg references excludes fs).map FieldRecord.name
        = fs.map Prod.fst := by
  induction fs with
  | nil => intro excludes _ _ _; rfl
  | cons p rest ih =>
      intro excludes hsan hnd hdisj
      have hhead : p.1 ∈ (p :: rest).map Prod.fst := by simp
      have hname : get_valid_field_name cfg excludes p.1 = p.1 := by
        simp only [get_valid_field_name, hsan p.1 hhead]
        exact uniquify_eq_of_not_mem excludes p.1 (hdisj p.1 hhead)
      rw [parse_input_fields]
      simp only [List.map_cons, hname]
      have hrest : (parse_input_fields cfg references (p.1 :: excludes)
          rest).map FieldRecord.name = rest.map Prod.fst := by
        refine ih (p.1 :: excludes) (fun x hx => hsan x (by simp [hx]))
          ((List.nodup_cons.mp hnd).2 : (rest.map Prod.fst).Nodup)
          (fun x hx => ?_)
        have hxne : x ≠ p.1 := fun he =>
          (List.nodup_cons.mp hnd).1 (he ▸ hx)
        have hxex : x ∉ excludes := hdisj x (by simp [hx])
        simp [List.mem_cons, hxne, hxex]
      rw [hrest]
      simp [parse_field]

/-- Sorting by a string key yields a list whose keys are sorted. -/
theorem sort_by_name_key_sorted {α : Type} (key : α → String) (l : List α) :
    List.Sorted (fun a b => str_le a b = true) ((sort_by_name key l).map key) := by
  haveI : IsTotal α (fun a b => str_le (key a) (key b) = true) :=
    ⟨fun a b => str_le_total (key a) (key b)⟩
  haveI : IsTrans α (fun a b => str_le (key a) (key b) = true) :=
    ⟨fun _ _ _ hab hbc => str_le_trans _ _ _ hab hbc⟩
  have h := List.sorted_insertionSort
    (fun a b => str_le (key a) (key b) = true) l
  exact (List.pairwise_map).mpr h

/-- Sorting by a string key permutes the list. -/
theorem sort_by_name_perm {α : Type} (key : α → String) (l : List α) :
    (sort_by_name key l).Perm l :=
  List.perm_insertionSort (fun a b => str_le (key a) (key b) = true) l

/-- Claim C4 (amended): because `build_graphql_schema` lexicographically
sorts the schema before parsing, the declared field records of every
object, interface and input-object model appear sorted by field name and
are a permutation of the schema-declared fields; the order equals the
schema declaration order exactly when the fields were declared in sorted
order.  (Stated for declarations whose field names are pairwise distinct —
guaranteed for a schema `type_map` — and untouched by sanitization.) -/
theorem C4_field_order_amended (cfg : ParserConfig)
    (references : List String) (tname : String)
    (fs : List (String × GQLField)) (ifaces : List String)
    (hsan : ∀ x ∈ fs.map Prod.fst, cfg.sanitize x = x)
    (hnd : (fs.map Prod.fst).Nodup) :
    (List.Sorted (fun a b => str_le a b = true)
        ((parse_named_type cfg references
          (sort_decl (.objectDecl tname fs ifaces))).fields.dropLast.map
            FieldRecord.name) ∧
      ((parse_named_type cfg references
          (sort_decl (.objectDecl tname fs ifaces))).fields.dropLast.map
            FieldRecord.name).Perm (fs.map Prod.fst)) ∧
    (List.Sorted (fun a b => str_le a b = true)
        ((parse_named_type cfg references
          (sort_decl (.interfaceDecl tname fs))).fields.dropLast.map
            FieldRecord.name) ∧
      ((parse_named_type cfg references
          (sort_decl (.interfaceDecl tname fs))).fields.dropLast.map
            FieldRecord.name).Perm (fs.map Prod.fst)) ∧
    (List.Sorted (fun a b => str_le a b = true)
        ((parse_named_type cfg references
          (sort_decl (.inputDecl tname fs))).fields.dropLast.map
            FieldRecord.name) ∧
      ((parse_named_type cfg references
          (sort_decl (.inputDecl tname fs))).fields.dropLast.map
            FieldRecord.name).Perm (fs.map Prod.fst)) := by
  have hperm : ((sort_by_name Prod.fst fs).map Prod.fst).Perm
      (fs.map Prod.fst) := (sort_by_name_perm Prod.fst fs).map Prod.fst
  have hsan2 : ∀ x ∈ (sort_by_name Prod.fst fs).map Prod.fst,
      cfg.sanitize x = x := fun x hx => hsan x (hperm.mem_iff.mp hx)
  have hnd2 : ((sort_by_name Prod.fst fs).map Prod.fst).Nodup :=
    hperm.nodup_iff.mpr hnd
  have hobj : (parse_object_fields cfg references []
      (sort_by_name Prod.fst fs)).map FieldRecord.name
        = (sort_by_name Prod.fst fs).map Prod.fst :=
    parse_object_fields_names_untouched cfg references _ [] hsan2 hnd2
      (fun x _ => List.not_mem_nil x)
  have hinp : (parse_input_fields cfg references []
      (sort_by_name Prod.fst fs)).map FieldRecord.name
        = (sort_by_name Prod.fst fs).map Prod.fst :=
    parse_input_fields_names_untouched cfg references _ [] hsan2 hnd2
      (fun x _ => List.not_mem_nil x)
  have hsorted := sort_by_name_key_sorted Prod.fst fs
  refine ⟨⟨?_, ?_⟩, ⟨?_, ?_⟩, ⟨?_, ?_⟩⟩ <;>
    simp only [parse_named_type, sort_decl, parse_object, parse_interface,
      parse_object_like, parse_input_object, List.dropLast_concat,
      hobj, hinp]
  · exact hsorted
  · exact hperm
  · exact hsorted
  · exact hperm
  · exact hsorted
  · exact hperm

/-- Witness for the amended C4 at the concrete object `T` with fields
declared in the order `b`, `a`. -/
theorem C4_amended_witness :
    (∀ x ∈ ([("b", ({ type_ := .named "String" } : GQLField)),
        ("a", ({ type_ := .named "String" } : GQLField))].map Prod.fst),
      ({} : ParserConfig).sanitize x = x) ∧
    (([("b", ({ type_ := .named "String" } : GQLField)),
        ("a", ({ type_ := .named "String" } : GQLField))].map Prod.fst).Nodup) ∧
    (List.Sorted (fun a b => str_le a b = true)
        ((parse_named_type {} []
          (sort_decl (.objectDecl "T"
            [("b", { type_ := .named "String" }),
              ("a", { type_ := .named "String" })] []))).fields.dropLast.map
            FieldRecord.name) ∧
      ((parse_named_type {} []
          (sort_decl (.objectDecl "T"
            [("b", { type_ := .named "String" }),
              ("a", { type_ := .named "String" })] []))).fields.dropLast.map
            FieldRecord.name).Perm
        ([("b", ({ type_ := .named "String" } : GQLField)),
          ("a", ({ type_ := .named "String" } : GQLField))].map Prod.fst)) :=
  ⟨by decide, by decide,
    (C4_field_order_amended {} [] "T"
      [("b", { type_ := .named "String" }),
        ("a", { type_ := .named "String" })] []
      (by decide) (by decide)).1⟩

end GraphQL
